import Mathlib

/-!
Verification of the tabular-to-SQL conversion tool: a shallow embedding of
the reader backends (`utils/csv_reader.py`, `utils/xlsx.py`) and of the
deduplicating batch SQL generator (`make_sqls` and `check_conf` in
`main.py`), together with theorems settling the specified properties.

Cell values are modelled as `Option String` (`none` is Python's `None`,
i.e. an absent cell); Python's `str(...)` applied to such a value is
`pyStr`.  The row loop of `make_sqls` is a left fold of `genStep` over the
scanned row indices; the duplicate dictionary is an association list with
Python-`dict` insertion-order semantics.
-/

/-- Python `str` applied to a possibly absent cell value: `str(None)` is
the string `"None"`, a plain string is unchanged. -/
def pyStr : Option String → String
  | none => "None"
  | some s => s

/-- Characters remaining after Python's `str.replace(" ", "")`: every space
character (U+0020) is dropped, all other characters are kept in order. -/
def removeSpaces : List Char → List Char
  | [] => []
  | ch :: rest => if ch = ' ' then removeSpaces rest else ch :: removeSpaces rest

/-- Python `s.replace(" ", "")` as used on the name column in `make_sqls`. -/
def pyReplaceSpace (s : String) : String :=
  ⟨removeSpaces s.data⟩

/-- Configuration fields consumed by the generator (class `Conf` in
`main.py`, restricted to the fields the generation pipeline reads). -/
structure Conf where
  expire_date : String
  row_begin : Nat
  col_server : Nat
  col_name : Nat
  col_cdkey : Nat
  col_expire : Nat
  sql_table : String
  sql_len : Nat

/-- Abstract tabular source: the duck-typed reader interface of
`utils/ireader.py` (open-check, max row, max column, 1-based cell read). -/
structure IReader where
  is_open : Bool
  get_max_row : Nat
  get_max_column : Nat
  get_value : Nat → Nat → Option String

/-- Server id of one row as interpolated by `make_sqls` (`f"{s}"`). -/
def rowServer (c : Conf) (x : IReader) (r : Nat) : String :=
  pyStr (x.get_value r c.col_server)

/-- Name of one row: `str(x.get_value(row, col.name)).replace(" ", "")`. -/
def rowName (c : Conf) (x : IReader) (r : Nat) : String :=
  pyReplaceSpace (pyStr (x.get_value r c.col_name))

/-- CD key of one row as interpolated by `make_sqls` (`f"{k}"`). -/
def rowCdkey (c : Conf) (x : IReader) (r : Nat) : String :=
  pyStr (x.get_value r c.col_cdkey)

/-- Expire value of one row: the per-row cell when `col.expire > 0`, the
static configured `expire_date` otherwise. -/
def rowExpire (c : Conf) (x : IReader) (r : Nat) : String :=
  if 0 < c.col_expire then pyStr (x.get_value r c.col_expire) else c.expire_date

/-- Dedup key of one row: `f"{s}-{n}"`. -/
def rowKey (c : Conf) (x : IReader) (r : Nat) : String :=
  rowServer c x r ++ "-" ++ rowName c x r

/-- Value tuple of one row: `f'("{s}", "{n}", "{k}", "{e}")'`. -/
def rowTuple (c : Conf) (x : IReader) (r : Nat) : String :=
  "(\"" ++ rowServer c x r ++ "\", \"" ++ rowName c x r ++ "\", \"" ++
    rowCdkey c x r ++ "\", \"" ++ rowExpire c x r ++ "\")"

/-- Python `", ".join(values)`. -/
def joinComma : List String → String
  | [] => ""
  | [v] => v
  | v :: rest => v ++ ", " ++ joinComma rest

/-- One `insert into ...` statement over a batch of value tuples, exactly as
formatted in `make_sqls`. -/
def insertStmt (c : Conf) (vs : List String) : String :=
  "insert into " ++ c.sql_table ++
    " (server_id, role_name, cd_key, expire_date) values " ++ joinComma vs ++ ";"

/-- The `DROP TABLE` + `CREATE TABLE` statement returned by `create_table`
in `main.py` (single quotes written as `\x27`). -/
def create_table (c : Conf) : String :=
  "\nDROP TABLE IF EXISTS `" ++ c.sql_table ++ "`;\nCREATE TABLE `" ++ c.sql_table ++
  "` (\n\t`cd_key` varchar(32) COLLATE utf8mb4_bin NOT NULL COMMENT \x27cdkey\x27,\n\t`role_name` varchar(255) COLLATE utf8mb4_bin DEFAULT \x27\x27 COMMENT \x27角色名字\x27,\n\t`server_id` smallint(6) unsigned NOT NULL DEFAULT \x270\x27 COMMENT \x27服务器ID\x27,\n\t`role_id` bigint(20) NOT NULL DEFAULT \x270\x27 COMMENT \x27角色ID\x27,\n\t`score` bigint(20) NOT NULL DEFAULT \x270\x27 COMMENT \x27积分\x27,\n\t`expire_date` datetime DEFAULT \x27" ++
  c.expire_date ++
  "\x27 COMMENT \x27过期时间\x27,\n\t`status` smallint(6) unsigned NOT NULL DEFAULT \x270\x27 COMMENT \x27标记是否被使用 0：cdkey未被使用 1:cdkey被使用\x27,\n\tPRIMARY KEY (`cd_key`) USING BTREE,\n\tUNIQUE KEY `cd_key_index` (`role_name`,`server_id`) USING BTREE\n) ENGINE=InnoDB DEFAULT CHARSET=utf8mb4 COLLATE=utf8mb4_bin ROW_FORMAT=DYNAMIC;\n"

/-- Lookup in an insertion-ordered association list (Python `dict` access). -/
def lookupA (d : List (String × List String)) (k : String) : Option (List String) :=
  match d with
  | [] => none
  | (k2, v) :: rest => if k2 = k then some v else lookupA rest k

/-- Python `dict.setdefault(k, [])`: insert `(k, [])` at the end when the
key is absent, leave the dictionary unchanged otherwise. -/
def setdefaultA (d : List (String × List String)) (k : String) :
    List (String × List String) :=
  match lookupA d k with
  | some _ => d
  | none => d ++ [(k, [])]

/-- Python `dict[k].append(v)`: append `v` to the entry stored at key `k`,
leaving every other entry untouched. -/
def appendA (d : List (String × List String)) (k : String) (v : String) :
    List (String × List String) :=
  match d with
  | [] => []
  | (k2, w) :: rest =>
    (if k2 = k then (k2, w ++ [v]) else (k2, w)) :: appendA rest k v

/-- Whether key `k` is recorded with a non-empty value list, i.e. the skip
condition `len(duplicate_datas[d_k]) > 0` read on the raw dictionary. -/
def seenA (d : List (String × List String)) (k : String) : Bool :=
  match lookupA d k with
  | some (_ :: _) => true
  | _ => false

/-- Loop state of `make_sqls`: the duplicate dictionary, the pending batch
`values`, and the insert statements accumulated so far. -/
structure GenSt where
  dups : List (String × List String)
  values : List String
  sqls : List String

/-- One iteration of the row loop in `make_sqls` (lines 82-101 of
`main.py`): `setdefault` the dedup key, skip when its list is non-empty,
otherwise record the cd key, append the value tuple, and flush a full
batch as one insert statement. -/
def genStep (c : Conf) (x : IReader) (st : GenSt) (r : Nat) : GenSt :=
  if 0 < ((lookupA (setdefaultA st.dups (rowKey c x r)) (rowKey c x r)).getD []).length then
    { st with dups := setdefaultA st.dups (rowKey c x r) }
  else if c.sql_len ≤ (st.values ++ [rowTuple c x r]).length then
    { dups := appendA (setdefaultA st.dups (rowKey c x r)) (rowKey c x r) (rowCdkey c x r)
      values := []
      sqls := st.sqls ++ [insertStmt c (st.values ++ [rowTuple c x r])] }
  else
    { dups := appendA (setdefaultA st.dups (rowKey c x r)) (rowKey c x r) (rowCdkey c x r)
      values := st.values ++ [rowTuple c x r]
      sqls := st.sqls }

/-- Row indices visited by the loop: Python `range(c.row_begin, row_max + 1)`
in ascending order. -/
def scannedRows (c : Conf) (x : IReader) : List Nat :=
  List.range' c.row_begin (x.get_max_row + 1 - c.row_begin)

/-- State after running the whole row loop from the empty initial state. -/
def genFold (c : Conf) (x : IReader) : GenSt :=
  (scannedRows c x).foldl (genStep c x) ⟨[], [], []⟩

/-- The full statement list produced by `make_sqls`: the create-table text,
the flushed batches, and a final partial batch when non-empty. -/
def make_sqls (c : Conf) (x : IReader) : List String :=
  (create_table c :: (genFold c x).sqls) ++
    (if 0 < (genFold c x).values.length then [insertStmt c (genFold c x).values] else [])

/-- Row indices kept by first-occurrence deduplication of `rowKey`, given
the set of keys already seen. -/
def keptAux (c : Conf) (x : IReader) (seen : List String) : List Nat → List Nat
  | [] => []
  | r :: rs =>
    if rowKey c x r ∈ seen then keptAux c x seen rs
    else r :: keptAux c x (seen ++ [rowKey c x r]) rs

/-- Row indices dropped as duplicates, given the keys already seen. -/
def droppedAux (c : Conf) (x : IReader) (seen : List String) : List Nat → List Nat
  | [] => []
  | r :: rs =>
    if rowKey c x r ∈ seen then r :: droppedAux c x seen rs
    else droppedAux c x (seen ++ [rowKey c x r]) rs

/-- Scanned rows that survive deduplication (first occurrence of each key). -/
def keptRows (c : Conf) (x : IReader) : List Nat :=
  keptAux c x [] (scannedRows c x)

/-- Scanned rows dropped as duplicates. -/
def droppedRows (c : Conf) (x : IReader) : List Nat :=
  droppedAux c x [] (scannedRows c x)

/-- One step of batching: append the tuple to the pending batch and flush
when the batch reaches `n` tuples (the `len(values) >= c.sql_len` check). -/
def batchStep (n : Nat) (acc : List (List String) × List String) (t : String) :
    List (List String) × List String :=
  if n ≤ (acc.2 ++ [t]).length then (acc.1 ++ [acc.2 ++ [t]], []) else (acc.1, acc.2 ++ [t])

/-- Batching a tuple stream starting from a pending batch `vs0`: returns the
flushed batches and the final pending batch. -/
def batchesFrom (n : Nat) (vs0 : List String) (l : List String) :
    List (List String) × List String :=
  l.foldl (batchStep n) ([], vs0)

/-- All batches that become insert statements: the full batches flushed in
the loop plus the final pending batch when non-empty. -/
def allBatches (c : Conf) (x : IReader) : List (List String) :=
  (batchesFrom c.sql_len [] ((keptRows c x).map (rowTuple c x))).1 ++
    (if 0 < (batchesFrom c.sql_len [] ((keptRows c x).map (rowTuple c x))).2.length then
      [(batchesFrom c.sql_len [] ((keptRows c x).map (rowTuple c x))).2]
    else [])

/-- Error raised by `check_conf` in `main.py`: the source is not open, or
the configured column indices exceed the source's column count. -/
inductive CheckErr where
  | notOpen : CheckErr
  | badColumns : CheckErr
deriving DecidableEq

/-- The pre-generation validation `check_conf` of `main.py`: reject an
unopened source, then reject a configuration whose largest column index
(`max(c.col_server, c.col_name, c.col_cdkey, c.col_expire)`) exceeds the
source's maximum column count. -/
def check_conf (c : Conf) (x : IReader) : Except CheckErr Unit :=
  if x.is_open = false then Except.error CheckErr.notOpen
  else if x.get_max_column <
      Nat.max (Nat.max (Nat.max c.col_server c.col_name) c.col_cdkey) c.col_expire then
    Except.error CheckErr.badColumns
  else Except.ok ()

/-- The orchestration order of `main`: `check_conf` runs before `make_sqls`,
so a failing validation produces no statement list. -/
def generate (c : Conf) (x : IReader) : Except CheckErr (List String) :=
  match check_conf c x with
  | Except.error e => Except.error e
  | Except.ok _ => Except.ok (make_sqls c x)

/-- The delimited-text source of `utils/csv_reader.py`: the parsed rows. -/
structure CSVReader where
  data : List (List String)

/-- Python list indexing `l[i]` with its negative-index wrap-around,
returning `none` where Python raises `IndexError`. -/
def pyIndex {α : Type} (l : List α) (i : Int) : Option α :=
  if (if i < 0 then (l.length : Int) + i else i) < 0 then none
  else l.get? (if i < 0 then (l.length : Int) + i else i).toNat

/-- `CSVReader.get_value`: `self.data[row_index - 1][col_index - 1]` wrapped
in `try/except IndexError`, which returns `None` on an index error at
either level. -/
def CSVReader.get_value (cr : CSVReader) (row col : Int) : Option String :=
  match pyIndex cr.data (row - 1) with
  | none => none
  | some rowData => pyIndex rowData (col - 1)

/-- `CSVReader.is_open` returns `True` unconditionally. -/
def CSVReader.is_open (_ : CSVReader) : Bool := true

/-- `CSVReader.get_max_row`: the number of parsed rows. -/
def CSVReader.get_max_row (cr : CSVReader) : Nat := cr.data.length

/-- `CSVReader.get_max_column`: the maximum row length, `0` when empty. -/
def CSVReader.get_max_column (cr : CSVReader) : Nat :=
  cr.data.foldr (fun row acc => Nat.max row.length acc) 0

/-- Construction of a `CSVReader`: the constructor reads and parses the
file with no exception handler, so an I/O failure propagates to the caller
and a success yields the fully parsed grid. -/
def csvConstruct (readResult : Except String (List (List String))) :
    Except String CSVReader :=
  match readResult with
  | Except.error e => Except.error e
  | Except.ok d => Except.ok ⟨d⟩

/-- One worksheet of a workbook (native bounds and cell values). -/
structure Sheet where
  cells : Nat → Nat → Option String
  max_row : Nat
  max_column : Nat

/-- A loaded workbook: its list of worksheets (`wb.worksheets`). -/
structure Workbook where
  worksheets : List Sheet

/-- The spreadsheet source state after `Xlsx.__init__`: the workbook
reference (set only when `load_workbook` succeeded) and the selected sheet
(set only when `worksheets[0]` existed). -/
structure Xlsx where
  workbook : Option Workbook
  sheet : Option Sheet
  sheet_index : Option Nat

/-- `Xlsx.__init__` on a load result: every exception of the try-block is
caught.  When `load_workbook` fails, `self.__workbook` stays `None`; when
it succeeds, `self.__workbook` is assigned before `self.sheet(0)` runs, so
a failure selecting the first sheet (a workbook whose `worksheets` list is
empty) is caught but leaves the workbook reference set. -/
def Xlsx.init (loadResult : Except String Workbook) : Xlsx :=
  match loadResult with
  | Except.error _ => { workbook := none, sheet := none, sheet_index := none }
  | Except.ok wb =>
    match wb.worksheets.get? 0 with
    | some sh => { workbook := some wb, sheet := some sh, sheet_index := some 0 }
    | none => { workbook := some wb, sheet := none, sheet_index := some 0 }

/-- `Xlsx.is_open`: `self.__workbook is not None`. -/
def Xlsx.is_open (x : Xlsx) : Bool := x.workbook.isSome

/-- Modelled from the spec: the specification's whitespace stripping for
the name column ("name has interior whitespace stripped", "every
whitespace character removed"), to be compared with the source's
`replace(" ", "")`. -/
def specStripWhitespace (s : String) : String :=
  ⟨s.data.filter (fun ch => !ch.isWhitespace)⟩

/-- Test fixture: an abstract reader over a list of rows with 1-based
coordinates, used to evaluate the generator on concrete inputs. -/
def readerOfRows (rows : List (List String)) : IReader :=
  { is_open := true
    get_max_row := rows.length
    get_max_column := rows.foldr (fun r acc => Nat.max r.length acc) 0
    get_value := fun r c =>
      if 1 ≤ r ∧ 1 ≤ c then (rows.get? (r - 1)).bind (fun rw => rw.get? (c - 1)) else none }

/-- Test fixture: a configuration with no per-row expiry column and batch
size 2, matching the worked example of the specification. -/
def confA : Conf :=
  { expire_date := "2099-01-01", row_begin := 1, col_server := 1, col_name := 2
    col_cdkey := 3, col_expire := 0, sql_table := "cdkeys", sql_len := 2 }

/-- Test fixture: the specification's example rows, with a duplicate
(server, name) pair in rows 1 and 2. -/
def readerA : IReader :=
  readerOfRows [["1", "Alice", "K1"], ["1", "Alice", "K2"], ["2", "Bob", "K3"]]

/-- Test fixture: like `confA` but with a batch size large enough that no
flush happens inside the loop. -/
def confColl : Conf :=
  { expire_date := "2099-01-01", row_begin := 1, col_server := 1, col_name := 2
    col_cdkey := 3, col_expire := 0, sql_table := "t", sql_len := 10 }

/-- Test fixture: two rows with distinct (server, name) pairs whose
concatenated dedup keys coincide ("1" + "-" + "2-x" and "1-2" + "-" + "x"). -/
def readerColl : IReader :=
  readerOfRows [["1", "2-x", "K1"], ["1-2", "x", "K2"]]

/-- Test fixture: a configuration requesting column index 10. -/
def confWide : Conf :=
  { expire_date := "2099-01-01", row_begin := 1, col_server := 10, col_name := 2
    col_cdkey := 3, col_expire := 0, sql_table := "t", sql_len := 2 }

/-- Test fixture: a source with only 5 columns. -/
def readerNarrow : IReader :=
  readerOfRows [["a", "b", "c", "d", "e"]]

/-- Test fixture: a configuration reading the name from column 1. -/
def confNameCol : Conf :=
  { expire_date := "2099-01-01", row_begin := 1, col_server := 2, col_name := 1
    col_cdkey := 3, col_expire := 0, sql_table := "t", sql_len := 2 }

/-- Test fixture: a row whose name cell contains a space and a tab. -/
def readerTab : IReader :=
  readerOfRows [["a \tb", "1", "K1"]]

/-- Test fixture: a one-row, one-column delimited source. -/
def csvDemo : CSVReader := ⟨[["a"]]⟩

/-! ## Association-list lemmas for the duplicate dictionary -/

theorem lookupA_append (d l : List (String × List String)) (k : String) :
    lookupA (d ++ l) k = match lookupA d k with
      | some v => some v
      | none => lookupA l k := by
  induction d with
  | nil => simp [lookupA]
  | cons p rest ih =>
    by_cases h : p.1 = k
    · simp [lookupA, h]
    · simp only [List.cons_append, lookupA, h, if_neg]
      exact ih

theorem lookupA_setdefaultA_self (d : List (String × List String)) (k : String) :
    lookupA (setdefaultA d k) k = some ((lookupA d k).getD []) := by
  unfold setdefaultA
  cases h : lookupA d k with
  | some v => simp [h]
  | none => rw [lookupA_append, h]; simp [lookupA]

theorem lookupA_setdefaultA_ne (d : List (String × List String)) (k j : String)
    (hne : j ≠ k) : lookupA (setdefaultA d k) j = lookupA d j := by
  unfold setdefaultA
  cases h : lookupA d k with
  | some v => rfl
  | none =>
    rw [lookupA_append]
    cases h2 : lookupA d j with
    | some v => rfl
    | none => simp [lookupA, Ne.symm hne]

theorem lookupA_appendA_ne (d : List (String × List String)) (k v j : String)
    (hne : j ≠ k) : lookupA (appendA d k v) j = lookupA d j := by
  induction d with
  | nil => rfl
  | cons p rest ih =>
    obtain ⟨k2, w⟩ := p
    by_cases h1 : k2 = k
    · have h2 : ¬ k2 = j := fun hh => hne (hh.symm.trans h1)
      rw [show appendA ((k2, w) :: rest) k v = (k2, w ++ [v]) :: appendA rest k v from by
        simp [appendA, h1]]
      simp [lookupA, h2, ih]
    · rw [show appendA ((k2, w) :: rest) k v = (k2, w) :: appendA rest k v from by
        simp [appendA, h1]]
      by_cases h2 : k2 = j
      · simp [lookupA, h2]
      · simp [lookupA, h2, ih]

theorem lookupA_appendA_self (d : List (String × List String)) (k v : String) :
    ∀ w, lookupA d k = some w → lookupA (appendA d k v) k = some (w ++ [v]) := by
  induction d with
  | nil => intro w h; cases h
  | cons p rest ih =>
    obtain ⟨k2, w2⟩ := p
    intro w h
    by_cases h1 : k2 = k
    · have hw : w2 = w := by simpa [lookupA, h1] using h
      subst hw
      rw [show appendA ((k2, w2) :: rest) k v = (k2, w2 ++ [v]) :: appendA rest k v from by
        simp [appendA, h1]]
      simp [lookupA, h1]
    · have h' : lookupA rest k = some w := by simpa [lookupA, h1] using h
      rw [show appendA ((k2, w2) :: rest) k v = (k2, w2) :: appendA rest k v from by
        simp [appendA, h1]]
      simp [lookupA, h1, ih w h']

theorem seenA_eq_true_iff (d : List (String × List String)) (k : String) :
    seenA d k = true ↔ (lookupA d k).getD [] ≠ [] := by
  unfold seenA
  cases h : lookupA d k with
  | none => simp
  | some v => cases v <;> simp

/-! ## Batching lemmas -/

theorem batchStep_eq_pos (n : Nat) (bs : List (List String)) (vs : List String)
    (t : String) (h : n ≤ vs.length + 1) :
    batchStep n (bs, vs) t = (bs ++ [vs ++ [t]], []) := by
  simp [batchStep, h]

theorem batchStep_eq_neg (n : Nat) (bs : List (List String)) (vs : List String)
    (t : String) (h : ¬ n ≤ vs.length + 1) :
    batchStep n (bs, vs) t = (bs, vs ++ [t]) := by
  simp [batchStep, h]

theorem batchStep_shift (n : Nat) :
    ∀ (l : List String) (bs : List (List String)) (vs : List String),
      l.foldl (batchStep n) (bs, vs) =
        (bs ++ (l.foldl (batchStep n) ([], vs)).1, (l.foldl (batchStep n) ([], vs)).2) := by
  intro l
  induction l with
  | nil => intro bs vs; simp
  | cons t ts ih =>
    intro bs vs
    simp only [List.foldl_cons]
    by_cases h : n ≤ vs.length + 1
    · rw [batchStep_eq_pos n bs vs t h, batchStep_eq_pos n ([] : List (List String)) vs t h]
      simp only [List.nil_append]
      rw [ih (bs ++ [vs ++ [t]]) [], ih [vs ++ [t]] []]
      simp [List.append_assoc]
    · rw [batchStep_eq_neg n bs vs t h, batchStep_eq_neg n ([] : List (List String)) vs t h]
      exact ih bs (vs ++ [t])

theorem batchesFrom_flatten (n : Nat) :
    ∀ (l : List String) (vs : List String),
      (batchesFrom n vs l).1.flatten ++ (batchesFrom n vs l).2 = vs ++ l := by
  intro l
  induction l with
  | nil => intro vs; simp [batchesFrom]
  | cons t ts ih =>
    intro vs
    simp only [batchesFrom, List.foldl_cons]
    by_cases h : n ≤ vs.length + 1
    · rw [batchStep_eq_pos n ([] : List (List String)) vs t h]
      simp only [List.nil_append]
      rw [batchStep_shift n ts [vs ++ [t]] []]
      have hrec : (List.foldl (batchStep n) ([], []) ts).1.flatten ++
          (List.foldl (batchStep n) ([], []) ts).2 = ts := by
        simpa [batchesFrom] using ih []
      simp [List.flatten_append, List.append_assoc, hrec]
    · rw [batchStep_eq_neg n ([] : List (List String)) vs t h]
      simpa [batchesFrom] using ih (vs ++ [t])

theorem batchesFrom_sizes (n : Nat) (hn : 0 < n) :
    ∀ (l : List String) (vs : List String), vs.length < n →
      (∀ b ∈ (batchesFrom n vs l).1, b.length = n) ∧
        (batchesFrom n vs l).2.length < n := by
  intro l
  induction l with
  | nil => intro vs hvs; simpa [batchesFrom] using hvs
  | cons t ts ih =>
    intro vs hvs
    simp only [batchesFrom, List.foldl_cons]
    by_cases h : n ≤ vs.length + 1
    · have hlen : (vs ++ [t]).length = n := by simp; omega
      rw [batchStep_eq_pos n ([] : List (List String)) vs t h]
      simp only [List.nil_append]
      rw [batchStep_shift n ts [vs ++ [t]] []]
      have hrec := ih [] (by simpa using hn)
      simp only [batchesFrom] at hrec
      refine ⟨?_, by simpa using hrec.2⟩
      intro b hb
      simp only [List.mem_append, List.mem_singleton] at hb
      rcases hb with hb | hb
      · rw [hb]; exact hlen
      · exact hrec.1 b hb
    · have hlt : (vs ++ [t]).length < n := by simp; omega
      rw [batchStep_eq_neg n ([] : List (List String)) vs t h]
      have hrec := ih (vs ++ [t]) hlt
      simpa [batchesFrom] using hrec

/-! ## Row-range and deduplication lemmas -/

theorem mem_range_iff : ∀ (n s m : Nat), m ∈ List.range' s n ↔ s ≤ m ∧ m < s + n := by
  intro n
  induction n with
  | zero => intro s m; simp [List.range']
  | succ n ih =>
    intro s m
    have hr : List.range' s (n + 1) = s :: List.range' (s + 1) n := rfl
    rw [hr]
    simp only [List.mem_cons, ih]
    omega

theorem range_pairwise : ∀ (n s : Nat), (List.range' s n).Pairwise (· < ·) := by
  intro n
  induction n with
  | zero => intro s; simp [List.range']
  | succ n ih =>
    intro s
    have hr : List.range' s (n + 1) = s :: List.range' (s + 1) n := rfl
    rw [hr]
    refine List.pairwise_cons.2 ⟨?_, ih (s + 1)⟩
    intro b hb
    have := (mem_range_iff n (s + 1) b).1 hb
    omega

theorem keptAux_add_droppedAux_length (c : Conf) (x : IReader) :
    ∀ (rows : List Nat) (seen : List String),
      (keptAux c x seen rows).length + (droppedAux c x seen rows).length = rows.length := by
  intro rows
  induction rows with
  | nil => intro seen; rfl
  | cons r rs ih =>
    intro seen
    by_cases hk : rowKey c x r ∈ seen
    · rw [show keptAux c x seen (r :: rs) = keptAux c x seen rs from by simp [keptAux, hk],
          show droppedAux c x seen (r :: rs) = r :: droppedAux c x seen rs from by
            simp [droppedAux, hk]]
      have := ih seen
      simp only [List.length_cons]
      omega
    · rw [show keptAux c x seen (r :: rs) = r :: keptAux c x (seen ++ [rowKey c x r]) rs from by
            simp [keptAux, hk],
          show droppedAux c x seen (r :: rs) = droppedAux c x (seen ++ [rowKey c x r]) rs from by
            simp [droppedAux, hk]]
      have := ih (seen ++ [rowKey c x r])
      simp only [List.length_cons]
      omega

theorem keptAux_sublist (c : Conf) (x : IReader) :
    ∀ (rows : List Nat) (seen : List String), (keptAux c x seen rows).Sublist rows := by
  intro rows
  induction rows with
  | nil => intro seen; simp [keptAux]
  | cons r rs ih =>
    intro seen
    by_cases hk : rowKey c x r ∈ seen
    · rw [show keptAux c x seen (r :: rs) = keptAux c x seen rs from by simp [keptAux, hk]]
      exact (ih seen).cons r
    · rw [show keptAux c x seen (r :: rs) = r :: keptAux c x (seen ++ [rowKey c x r]) rs from by
        simp [keptAux, hk]]
      exact (ih (seen ++ [rowKey c x r])).cons₂ r

theorem keptAux_min (c : Conf) (x : IReader) :
    ∀ (rows : List Nat) (seen : List String), rows.Pairwise (· < ·) →
      ∀ p ∈ keptAux c x seen rows,
        rowKey c x p ∉ seen ∧ ∀ q ∈ rows, rowKey c x q = rowKey c x p → p ≤ q := by
  intro rows
  induction rows with
  | nil => intro seen _ p hp; simp [keptAux] at hp
  | cons r rs ih =>
    intro seen hpw p hp
    have hpw' := List.pairwise_cons.1 hpw
    by_cases hk : rowKey c x r ∈ seen
    · rw [show keptAux c x seen (r :: rs) = keptAux c x seen rs from by
        simp [keptAux, hk]] at hp
      obtain ⟨hnotin, hmin⟩ := ih seen hpw'.2 p hp
      refine ⟨hnotin, ?_⟩
      intro q hq hkey
      rcases List.mem_cons.1 hq with rfl | hq'
      · exact absurd (hkey ▸ hk) hnotin
      · exact hmin q hq' hkey
    · rw [show keptAux c x seen (r :: rs) = r :: keptAux c x (seen ++ [rowKey c x r]) rs from by
        simp [keptAux, hk]] at hp
      rcases List.mem_cons.1 hp with rfl | hp'
      · refine ⟨hk, ?_⟩
        intro q hq _
        rcases List.mem_cons.1 hq with rfl | hq'
        · exact le_refl q
        · exact le_of_lt (hpw'.1 q hq')
      · obtain ⟨hnotin, hmin⟩ := ih (seen ++ [rowKey c x r]) hpw'.2 p hp'
        have hnotseen : rowKey c x p ∉ seen := fun hh => hnotin (List.mem_append_left _ hh)
        have hner : rowKey c x p ≠ rowKey c x r := fun hh =>
          hnotin (List.mem_append_right _ (by simp [hh]))
        refine ⟨hnotseen, ?_⟩
        intro q hq hkey
        rcases List.mem_cons.1 hq with rfl | hq'
        · exact absurd hkey (fun hh => hner hh.symm)
        · exact hmin q hq' hkey

/-! ## The loop invariant: `make_sqls` equals dedup-then-batch -/

theorem gen_eq (c : Conf) (x : IReader) :
    ∀ (rows : List Nat) (st : GenSt) (seen : List String),
      (∀ k, seenA st.dups k = true ↔ k ∈ seen) →
      (rows.foldl (genStep c x) st).sqls =
        st.sqls ++ (batchesFrom c.sql_len st.values
          ((keptAux c x seen rows).map (rowTuple c x))).1.map (insertStmt c) ∧
      (rows.foldl (genStep c x) st).values =
        (batchesFrom c.sql_len st.values ((keptAux c x seen rows).map (rowTuple c x))).2 := by
  intro rows
  induction rows with
  | nil =>
    intro st seen _
    simp [keptAux, batchesFrom]
  | cons r rs ih =>
    intro st seen hinv
    by_cases hk : rowKey c x r ∈ seen
    · -- duplicate row: the loop state is unchanged and the row is not kept
      have hne : (lookupA st.dups (rowKey c x r)).getD [] ≠ [] :=
        (seenA_eq_true_iff _ _).1 ((hinv _).2 hk)
      have hsd : setdefaultA st.dups (rowKey c x r) = st.dups := by
        unfold setdefaultA
        cases hl : lookupA st.dups (rowKey c x r) with
        | some v => rfl
        | none => simp [hl] at hne
      have hcond : 0 <
          ((lookupA (setdefaultA st.dups (rowKey c x r)) (rowKey c x r)).getD []).length := by
        rw [lookupA_setdefaultA_self]
        simp only [Option.getD_some]
        exact List.length_pos.2 hne
      have hstep : genStep c x st r = st := by
        unfold genStep
        rw [if_pos hcond, hsd]
      rw [show keptAux c x seen (r :: rs) = keptAux c x seen rs from by simp [keptAux, hk],
          List.foldl_cons, hstep]
      exact ih st seen hinv
    · -- fresh key: the row is kept, its tuple is appended to the pending batch
      have hempty : (lookupA st.dups (rowKey c x r)).getD [] = [] := by
        by_contra hcon
        exact hk ((hinv _).1 ((seenA_eq_true_iff _ _).2 hcon))
      have hlook : lookupA (setdefaultA st.dups (rowKey c x r)) (rowKey c x r) = some [] := by
        rw [lookupA_setdefaultA_self, hempty]
      have hcond : ¬ 0 <
          ((lookupA (setdefaultA st.dups (rowKey c x r)) (rowKey c x r)).getD []).length := by
        rw [hlook]; simp
      have hinv2 : ∀ k, seenA (appendA (setdefaultA st.dups (rowKey c x r)) (rowKey c x r)
          (rowCdkey c x r)) k = true ↔ k ∈ seen ++ [rowKey c x r] := by
        intro k
        by_cases hkk : k = rowKey c x r
        · subst hkk
          have hself := lookupA_appendA_self (setdefaultA st.dups (rowKey c x r))
            (rowKey c x r) (rowCdkey c x r) [] hlook
          rw [seenA_eq_true_iff, hself]
          simp
        · rw [seenA_eq_true_iff, lookupA_appendA_ne _ _ _ _ hkk,
              lookupA_setdefaultA_ne _ _ _ hkk, ← seenA_eq_true_iff, hinv k]
          simp [hkk]
      rw [show keptAux c x seen (r :: rs) =
            r :: keptAux c x (seen ++ [rowKey c x r]) rs from by simp [keptAux, hk],
          List.foldl_cons, List.map_cons]
      by_cases hflush : c.sql_len ≤ st.values.length + 1
      · have hstep : genStep c x st r =
            ⟨appendA (setdefaultA st.dups (rowKey c x r)) (rowKey c x r) (rowCdkey c x r),
              [], st.sqls ++ [insertStmt c (st.values ++ [rowTuple c x r])]⟩ := by
          unfold genStep
          rw [if_neg hcond, if_pos (by simpa using hflush)]
        rw [hstep]
        obtain ⟨ihs, ihv⟩ := ih
          ⟨appendA (setdefaultA st.dups (rowKey c x r)) (rowKey c x r) (rowCdkey c x r),
            [], st.sqls ++ [insertStmt c (st.values ++ [rowTuple c x r])]⟩
          (seen ++ [rowKey c x r]) hinv2
        rw [ihs, ihv]
        simp only [batchesFrom, List.foldl_cons]
        rw [batchStep_eq_pos c.sql_len ([] : List (List String)) st.values (rowTuple c x r)
            hflush]
        simp only [List.nil_append]
        rw [batchStep_shift c.sql_len
            ((keptAux c x (seen ++ [rowKey c x r]) rs).map (rowTuple c x))
            [st.values ++ [rowTuple c x r]] []]
        simp [List.append_assoc]
      · have hstep : genStep c x st r =
            ⟨appendA (setdefaultA st.dups (rowKey c x r)) (rowKey c x r) (rowCdkey c x r),
              st.values ++ [rowTuple c x r], st.sqls⟩ := by
          unfold genStep
          rw [if_neg hcond, if_neg (by simpa using hflush)]
        rw [hstep]
        obtain ⟨ihs, ihv⟩ := ih
          ⟨appendA (setdefaultA st.dups (rowKey c x r)) (rowKey c x r) (rowCdkey c x r),
            st.values ++ [rowTuple c x r], st.sqls⟩
          (seen ++ [rowKey c x r]) hinv2
        rw [ihs, ihv]
        simp only [batchesFrom, List.foldl_cons]
        rw [batchStep_eq_neg c.sql_len ([] : List (List String)) st.values (rowTuple c x r)
            hflush]
        exact ⟨rfl, rfl⟩

theorem seenA_nil_iff : ∀ k : String, seenA [] k = true ↔ k ∈ ([] : List String) := by
  intro k
  simp [seenA, lookupA]

theorem genFold_sqls (c : Conf) (x : IReader) :
    (genFold c x).sqls = (batchesFrom c.sql_len []
      ((keptRows c x).map (rowTuple c x))).1.map (insertStmt c) := by
  have h := (gen_eq c x (scannedRows c x) ⟨[], [], []⟩ [] seenA_nil_iff).1
  simpa [genFold, keptRows] using h

theorem genFold_values (c : Conf) (x : IReader) :
    (genFold c x).values = (batchesFrom c.sql_len []
      ((keptRows c x).map (rowTuple c x))).2 := by
  have h := (gen_eq c x (scannedRows c x) ⟨[], [], []⟩ [] seenA_nil_iff).2
  simpa [genFold, keptRows] using h

theorem make_sqls_batches (c : Conf) (x : IReader) :
    make_sqls c x = create_table c :: (allBatches c x).map (insertStmt c) := by
  simp only [make_sqls, allBatches, genFold_sqls, genFold_values]
  by_cases hp : 0 <
      (batchesFrom c.sql_len [] ((keptRows c x).map (rowTuple c x))).2.length
  · rw [if_pos hp, if_pos hp]
    simp [List.map_append]
  · rw [if_neg hp, if_neg hp]
    simp

theorem allBatches_flatten (c : Conf) (x : IReader) :
    (allBatches c x).flatten = (keptRows c x).map (rowTuple c x) := by
  have hjoin := batchesFrom_flatten c.sql_len ((keptRows c x).map (rowTuple c x)) []
  simp only [allBatches]
  by_cases hp : 0 <
      (batchesFrom c.sql_len [] ((keptRows c x).map (rowTuple c x))).2.length
  · rw [if_pos hp]
    rw [List.flatten_append]
    simpa using hjoin
  · rw [if_neg hp]
    have h2 : (batchesFrom c.sql_len [] ((keptRows c x).map (rowTuple c x))).2 = [] :=
      List.length_eq_zero.1 (by omega)
    rw [List.append_nil]
    have := hjoin
    rw [h2, List.append_nil] at this
    simpa using this

theorem sum_lengths_const : ∀ (bs : List (List String)) (n : Nat),
    (∀ b ∈ bs, b.length = n) → bs.flatten.length = n * bs.length := by
  intro bs n
  induction bs with
  | nil => intro _; simp
  | cons b rest ih =>
    intro h
    have hb := h b (List.mem_cons_self b rest)
    have hr : ∀ b2 ∈ rest, b2.length = n := fun b2 hb2 => h b2 (List.mem_cons_of_mem b hb2)
    simp only [List.flatten_cons, List.length_append, List.length_cons, ih hr, hb,
      Nat.mul_succ]
    omega

theorem ceil_formula (n q r : Nat) (hn : 0 < n) (hr : r < n) :
    (n * q + r + n - 1) / n = q + (if r = 0 then 0 else 1) := by
  rcases Nat.eq_zero_or_pos r with hr0 | hrpos
  · subst hr0
    have he : n * q + 0 + n - 1 = n * q + (n - 1) := by omega
    rw [he, Nat.mul_add_div hn, Nat.div_eq_of_lt (by omega), if_pos rfl]
  · have he : n * q + r + n - 1 = n * (q + 1) + (r - 1) := by
      have hmul : n * (q + 1) = n * q + n := by ring
      omega
    rw [he, Nat.mul_add_div hn, Nat.div_eq_of_lt (by omega), if_neg (by omega)]

theorem allBatches_length (c : Conf) (x : IReader) (hn : 0 < c.sql_len) :
    (allBatches c x).length =
      ((keptRows c x).length + c.sql_len - 1) / c.sql_len := by
  have hsz := batchesFrom_sizes c.sql_len hn ((keptRows c x).map (rowTuple c x)) []
    (by simpa using hn)
  have hjoin := batchesFrom_flatten c.sql_len ((keptRows c x).map (rowTuple c x)) []
  have hlen : c.sql_len *
        (batchesFrom c.sql_len [] ((keptRows c x).map (rowTuple c x))).1.length +
        (batchesFrom c.sql_len [] ((keptRows c x).map (rowTuple c x))).2.length =
      (keptRows c x).length := by
    have hcong := congrArg List.length hjoin
    simp only [List.length_append, List.nil_append, List.length_map] at hcong
    rw [sum_lengths_const _ c.sql_len hsz.1] at hcong
    exact hcong
  have hceil := ceil_formula c.sql_len
    (batchesFrom c.sql_len [] ((keptRows c x).map (rowTuple c x))).1.length
    (batchesFrom c.sql_len [] ((keptRows c x).map (rowTuple c x))).2.length hn hsz.2
  simp only [allBatches]
  by_cases hp : 0 <
      (batchesFrom c.sql_len [] ((keptRows c x).map (rowTuple c x))).2.length
  · rw [if_pos hp]
    rw [← hlen]
    rw [hceil, if_neg (by omega)]
    simp
  · rw [if_neg hp]
    rw [← hlen]
    rw [hceil, if_pos (by omega)]
    simp

/-! ## Remaining helper lemmas -/

theorem removeSpaces_eq_filter : ∀ l : List Char,
    removeSpaces l = l.filter (fun ch => ch != ' ') := by
  intro l
  induction l with
  | nil => rfl
  | cons ch rest ih =>
    by_cases h : ch = ' '
    · simp [removeSpaces, List.filter_cons, h, ih]
    · simp [removeSpaces, List.filter_cons, h, ih]

theorem pyIndex_nonneg {α : Type} (l : List α) (i : Int) (h : 0 ≤ i) :
    pyIndex l i = l.get? i.toNat := by
  unfold pyIndex
  rw [if_neg (by omega : ¬ i < 0)]
  rw [if_neg (by omega : ¬ i < 0)]

/-! ## Claim theorems -/

/-- C5: `make_sqls` scans exactly the rows `rowBegin..maxRow` inclusive in
ascending order, and the value tuples appear in ascending original-row
order within and across the emitted insert statements: the statement list
is the create-table text followed by the batches in order, the flattened
batches are the tuples of the kept rows in order, and the kept rows form an
ascending sublist of the ascending scanned rows. -/
theorem row_order_preserved (c : Conf) (x : IReader) :
    make_sqls c x = create_table c :: (allBatches c x).map (insertStmt c) ∧
    (∀ r : Nat, r ∈ scannedRows c x ↔ c.row_begin ≤ r ∧ r ≤ x.get_max_row) ∧
    (scannedRows c x).Pairwise (· < ·) ∧
    (allBatches c x).flatten = (keptRows c x).map (rowTuple c x) ∧
    (keptRows c x).Sublist (scannedRows c x) ∧
    (keptRows c x).Pairwise (· < ·) := by
  refine ⟨make_sqls_batches c x, ?_, ?_, allBatches_flatten c x, ?_, ?_⟩
  · intro r
    rw [scannedRows, mem_range_iff]
    omega
  · exact range_pairwise _ _
  · exact keptAux_sublist c x (scannedRows c x) []
  · exact List.Pairwise.sublist (keptAux_sublist c x (scannedRows c x) [])
      (range_pairwise _ _)

/-- C2: with `sqlLen ≥ 1` the number of emitted insert statements equals
`ceil(uniqueRowCount / sqlLen)`, where the unique row count is the number
of scanned rows minus the dropped duplicates; when it is 0 the output is
only the create-table statement. -/
theorem insert_statement_count (c : Conf) (x : IReader) (hn : 1 ≤ c.sql_len) :
    make_sqls c x = create_table c :: (allBatches c x).map (insertStmt c) ∧
    (allBatches c x).length = ((keptRows c x).length + c.sql_len - 1) / c.sql_len ∧
    (make_sqls c x).length = 1 + ((keptRows c x).length + c.sql_len - 1) / c.sql_len ∧
    (keptRows c x).length + (droppedRows c x).length = (scannedRows c x).length ∧
    ((keptRows c x).length = 0 → make_sqls c x = [create_table c]) := by
  have hb := make_sqls_batches c x
  have hl := allBatches_length c x hn
  refine ⟨hb, hl, ?_, ?_, ?_⟩
  · rw [hb]
    simp only [List.length_cons, List.length_map, hl]
    omega
  · exact keptAux_add_droppedAux_length c x (scannedRows c x) []
  · intro h0
    have hkt : keptRows c x = [] := List.length_eq_zero.1 h0
    have hempty : allBatches c x = [] := by
      simp only [allBatches, hkt, List.map_nil]
      simp [batchesFrom]
    rw [hb, hempty]
    rfl

/-- C2 witness: on the three-row example with one duplicate and batch size
2, the statement list has length `1 + ceil(2 / 2) = 2`. -/
theorem insert_statement_count_witness :
    1 ≤ confA.sql_len ∧
      (make_sqls confA readerA).length =
        1 + ((keptRows confA readerA).length + confA.sql_len - 1) / confA.sql_len :=
  ⟨by decide, (insert_statement_count confA readerA (by decide)).2.2.1⟩

/-- C3: with `sqlLen ≥ 1` every emitted insert statement carries between 1
and `sqlLen` value tuples, every batch except possibly the last carries
exactly `sqlLen`, and the statement list is the create-table text followed
by exactly these batches (so the final partial batch is flushed). -/
theorem batch_size_bounds (c : Conf) (x : IReader) (hn : 1 ≤ c.sql_len) :
    make_sqls c x = create_table c :: (allBatches c x).map (insertStmt c) ∧
    (∀ b ∈ allBatches c x, 1 ≤ b.length ∧ b.length ≤ c.sql_len) ∧
    (∀ b ∈ (allBatches c x).dropLast, b.length = c.sql_len) := by
  have hsz := batchesFrom_sizes c.sql_len hn ((keptRows c x).map (rowTuple c x)) []
    (by simpa using hn)
  refine ⟨make_sqls_batches c x, ?_, ?_⟩
  · intro b hb
    simp only [allBatches, List.mem_append] at hb
    rcases hb with hb | hb
    · have := hsz.1 b hb
      omega
    · by_cases hp : 0 <
          (batchesFrom c.sql_len [] ((keptRows c x).map (rowTuple c x))).2.length
      · rw [if_pos hp] at hb
        simp only [List.mem_singleton] at hb
        subst hb
        have := hsz.2
        constructor <;> omega
      · rw [if_neg hp] at hb
        simp at hb
  · intro b hb
    simp only [allBatches] at hb
    by_cases hp : 0 <
        (batchesFrom c.sql_len [] ((keptRows c x).map (rowTuple c x))).2.length
    · rw [if_pos hp, List.dropLast_concat] at hb
      exact hsz.1 b hb
    · rw [if_neg hp, List.append_nil] at hb
      exact hsz.1 b ((List.dropLast_sublist _).subset hb)

/-- C3 witness: on the three-row example with one duplicate and batch size
2, every batch size lies in `[1, 2]`. -/
theorem batch_size_bounds_witness :
    1 ≤ confA.sql_len ∧
      ∀ b ∈ allBatches confA readerA, 1 ≤ b.length ∧ b.length ≤ confA.sql_len :=
  ⟨by decide, (batch_size_bounds confA readerA (by decide)).2.1⟩

/-- C1: when two scanned rows carry the same (serverId, strippedName) pair,
the later one is not kept, the batched tuples are exactly the kept rows'
tuples (so the later row contributes no value tuple to any batch), and any
kept row with that dedup key is no later than the earlier of the two. -/
theorem dedup_first_wins (c : Conf) (x : IReader) (i j : Nat)
    (hi : i ∈ scannedRows c x) (_hj : j ∈ scannedRows c x) (hij : i < j)
    (hs : rowServer c x i = rowServer c x j) (hn : rowName c x i = rowName c x j) :
    j ∉ keptRows c x ∧
    (allBatches c x).flatten = (keptRows c x).map (rowTuple c x) ∧
    ∀ p ∈ keptRows c x, rowKey c x p = rowKey c x j → p ≤ i := by
  have hkey : rowKey c x i = rowKey c x j := by
    rw [rowKey, rowKey, hs, hn]
  have hmin := keptAux_min c x (scannedRows c x) [] (range_pairwise _ _)
  refine ⟨?_, allBatches_flatten c x, ?_⟩
  · intro hjk
    have h := (hmin j hjk).2 i hi hkey
    omega
  · intro p hp hpk
    exact (hmin p hp).2 i hi (hkey.trans hpk.symm)

/-- C1 witness: in the example rows, rows 1 and 2 share the pair
(1, "Alice") and row 2 is dropped. -/
theorem dedup_first_wins_witness :
    (1 ∈ scannedRows confA readerA ∧ 2 ∈ scannedRows confA readerA ∧ (1 : Nat) < 2 ∧
      rowServer confA readerA 1 = rowServer confA readerA 2 ∧
      rowName confA readerA 1 = rowName confA readerA 2) ∧
    2 ∉ keptRows confA readerA :=
  ⟨⟨by decide, by decide, by decide, by decide, by decide⟩,
    (dedup_first_wins confA readerA 1 2 (by decide) (by decide) (by decide)
      (by decide) (by decide)).1⟩

/-- C6: the expire value of a row is the per-row cell exactly when the
expire-column index is positive and the static configured date when it is
0, in which case every row carries the same static date; the emitted
tuples are the kept rows' tuples built from these values. -/
theorem expire_value_selection (c : Conf) (x : IReader) :
    (allBatches c x).flatten = (keptRows c x).map (rowTuple c x) ∧
    (∀ r : Nat, 0 < c.col_expire → rowExpire c x r = pyStr (x.get_value r c.col_expire)) ∧
    (∀ r : Nat, c.col_expire = 0 → rowExpire c x r = c.expire_date) ∧
    (c.col_expire = 0 → ∀ r1 r2 : Nat, rowExpire c x r1 = rowExpire c x r2) := by
  refine ⟨allBatches_flatten c x, ?_, ?_, ?_⟩
  · intro r h
    simp [rowExpire, h]
  · intro r h
    simp [rowExpire, h]
  · intro h r1 r2
    simp [rowExpire, h]

/-- C6 witness: `confA` disables the per-row expire column, so row 1 uses
the static date and rows 1 and 2 agree. -/
theorem expire_value_selection_witness :
    confA.col_expire = 0 ∧ rowExpire confA readerA 1 = confA.expire_date ∧
      rowExpire confA readerA 1 = rowExpire confA readerA 2 :=
  ⟨rfl, (expire_value_selection confA readerA).2.2.1 1 rfl,
    (expire_value_selection confA readerA).2.2.2 rfl 1 2⟩

/-- C7 counterexample: a name cell containing a tab keeps the tab after the
generator's `replace(" ", "")`, so the name used in the output is not the
cell value with every whitespace character removed, and it still contains
whitespace. -/
theorem name_strip_claim_false :
    rowName confNameCol readerTab 1 ≠
      specStripWhitespace (pyStr (readerTab.get_value 1 confNameCol.col_name)) ∧
    (rowName confNameCol readerTab 1).data.any (fun ch => ch.isWhitespace) = true := by
  constructor
  · decide
  · decide

/-- C7 amended: the name used in the dedup key and in the emitted tuple of
every row is the cell's value with every space character (U+0020) removed;
other whitespace characters such as tabs are kept. -/
theorem name_space_removal (c : Conf) (x : IReader) (r : Nat) :
    (rowName c x r).data =
      (pyStr (x.get_value r c.col_name)).data.filter (fun ch => ch != ' ') ∧
    rowKey c x r = rowServer c x r ++ "-" ++ rowName c x r ∧
    rowTuple c x r = "(\"" ++ rowServer c x r ++ "\", \"" ++ rowName c x r ++ "\", \"" ++
      rowCdkey c x r ++ "\", \"" ++ rowExpire c x r ++ "\")" := by
  refine ⟨?_, rfl, rfl⟩
  simp only [rowName, pyReplaceSpace]
  exact removeSpaces_eq_filter _

/-- C4 counterexample: on a one-row source, `get_value(0, 1)` is below the
stored range but returns the stored cell "a" via Python's negative-index
wrap-around instead of an absent value. -/
theorem csv_get_value_claim_false :
    csvDemo.get_value 0 1 = some "a" ∧ ¬ csvDemo.get_value 0 1 = none ∧ (0 : Int) < 1 := by
  refine ⟨by decide, by decide, by decide⟩

/-- C4 amended: for 1-based indices `row, col ≥ 1`, `get_value` returns the
stored string when the position exists and an absent value when either
index exceeds the bounds, never raising; indices below 1 instead follow
Python's negative-index wrap-around. -/
theorem csv_get_value_bounds (cr : CSVReader) (row col : Int)
    (hr : 1 ≤ row) (hc : 1 ≤ col) :
    cr.get_value row col =
      ((cr.data.get? (row - 1).toNat).getD []).get? ((col - 1).toNat) := by
  unfold CSVReader.get_value
  rw [pyIndex_nonneg cr.data (row - 1) (by omega)]
  cases hrow : cr.data.get? (row - 1).toNat with
  | none => simp
  | some rd => simp [pyIndex_nonneg rd (col - 1) (by omega)]

/-- C4 witness: reading the in-range cell (1, 2) of a one-row source
returns the stored string "b". -/
theorem csv_get_value_bounds_witness :
    CSVReader.get_value ⟨[["a", "b"]]⟩ 1 2 = some "b" := by
  have h := csv_get_value_bounds ⟨[["a", "b"]]⟩ 1 2 (by decide) (by decide)
  rw [h]
  decide

/-- C8: with an open source, `check_conf` fails with the column error
exactly when the source's maximum column count is below the largest
configured column index, and the orchestration runs `check_conf` before
`make_sqls`, so a failing configuration yields no statement list while a
passing one yields `make_sqls`. -/
theorem column_check_spec (c : Conf) (x : IReader) (hx : x.is_open = true) :
    (check_conf c x = Except.error CheckErr.badColumns ↔
      x.get_max_column <
        Nat.max (Nat.max (Nat.max c.col_server c.col_name) c.col_cdkey) c.col_expire) ∧
    (x.get_max_column <
        Nat.max (Nat.max (Nat.max c.col_server c.col_name) c.col_cdkey) c.col_expire →
      generate c x = Except.error CheckErr.badColumns) ∧
    (Nat.max (Nat.max (Nat.max c.col_server c.col_name) c.col_cdkey) c.col_expire ≤
        x.get_max_column →
      generate c x = Except.ok (make_sqls c x)) := by
  have hxf : ¬ x.is_open = false := by simp [hx]
  refine ⟨⟨?_, ?_⟩, ?_, ?_⟩
  · intro h
    by_contra hcon
    unfold check_conf at h
    rw [if_neg hxf, if_neg hcon] at h
    exact Except.noConfusion h
  · intro h
    unfold check_conf
    rw [if_neg hxf, if_pos h]
  · intro h
    unfold generate check_conf
    rw [if_neg hxf, if_pos h]
  · intro h
    unfold generate check_conf
    rw [if_neg hxf, if_neg (by omega)]

/-- C8 witness: requesting column 10 from a 5-column source fails the
validation before any statement is produced. -/
theorem column_check_spec_witness :
    readerNarrow.is_open = true ∧
      generate confWide readerNarrow = Except.error CheckErr.badColumns :=
  ⟨rfl, (column_check_spec confWide readerNarrow rfl).2.1 (by decide)⟩

/-- C9 counterexample: loading a workbook whose `worksheets` list is empty
makes the sheet-selection step of the constructor fail; the failure is
caught, but the workbook reference was already assigned, so `is_open`
reports true even though construction did not complete. -/
theorem xlsx_open_claim_false :
    (Xlsx.init (Except.ok ⟨[]⟩)).sheet = none ∧
    (Xlsx.init (Except.ok ⟨[]⟩)).is_open = true :=
  ⟨rfl, rfl⟩

/-- C9 amended: `CSVReader.is_open` is true for every constructed instance
and its construction propagates the underlying failure; for the
spreadsheet source a `load_workbook` failure is caught and leaves
`is_open` false, but any failure after the workbook reference is assigned
(such as selecting the first sheet of a workbook without worksheets) is
caught with `is_open` remaining true. -/
theorem source_open_semantics :
    (∀ d : List (List String), CSVReader.is_open ⟨d⟩ = true) ∧
    (∀ e : String, csvConstruct (Except.error e) = Except.error e) ∧
    (∀ d : List (List String), csvConstruct (Except.ok d) = Except.ok ⟨d⟩) ∧
    (∀ e : String, (Xlsx.init (Except.error e)).is_open = false) ∧
    (∀ wb : Workbook, (Xlsx.init (Except.ok wb)).is_open = true) := by
  refine ⟨fun d => rfl, fun e => rfl, fun d => rfl, fun e => rfl, ?_⟩
  intro wb
  have hinit : Xlsx.init (Except.ok wb) = match wb.worksheets.get? 0 with
    | some sh => { workbook := some wb, sheet := some sh, sheet_index := some 0 }
    | none => { workbook := some wb, sheet := none, sheet_index := some 0 } := rfl
  rw [hinit]
  cases wb.worksheets.get? 0 <;> rfl

/-- C10: two rows with distinct (serverId, name) pairs whose concatenated
dedup keys coincide are treated as duplicates: the later row is dropped
and only the first row's tuple reaches the output. -/
theorem dedup_key_collision :
    (rowServer confColl readerColl 1, rowName confColl readerColl 1) ≠
      (rowServer confColl readerColl 2, rowName confColl readerColl 2) ∧
    rowKey confColl readerColl 1 = rowKey confColl readerColl 2 ∧
    keptRows confColl readerColl = [1] ∧
    droppedRows confColl readerColl = [2] ∧
    allBatches confColl readerColl = [[rowTuple confColl readerColl 1]] ∧
    make_sqls confColl readerColl =
      [create_table confColl, insertStmt confColl [rowTuple confColl readerColl 1]] := by
  refine ⟨by decide, by decide, by decide, by decide, by decide, ?_⟩
  rfl
